import Mathlib

/-!
# Verification of the page-object command wrapper

A shallow embedding of the command- and selector-resolution core
(`Command` and `CommandLoader` in the page-object module), together with
theorems settling the behavioural claims about it.

The embedding models JavaScript objects by explicit structures, in-place
mutation by state passing, and thrown exceptions by `Except`/`Option`
error results.  External collaborators that are not part of the sources
(the `Element` class, `Utils.LocateStrategy`, the API command-name
registries) are modelled from the specification and are marked as such in
their doc comments.
-/

/-- A flat locate descriptor: the projection of an element or section that
recursion chains carry (`selector`, `locateStrategy`, `pseudoSelector`). -/
structure Node where
  selector : String
  locateStrategy : Option String
  pseudoSelector : Option String := none
deriving DecidableEq, Repr

/-- The selector value carried by a resolved element: either a plain string
locator or a recursive chain of scopes (innermost target last). -/
inductive RSel where
  | str (s : String)
  | chain (nodes : List Node)
deriving DecidableEq, Repr

/-- A per-invocation element value, as built by `Element.createFromSelector`
and transformed by `parseElementSelector`.  The JavaScript `parent`
back-reference to the owning sections is modelled as the list of ancestor
locate descriptors, outermost first (empty when owned by a page). -/
structure RElement where
  selector : RSel
  locateStrategy : Option String
  pseudoSelector : Option String
  ancestors : List Node
  container : Option Node := none
deriving DecidableEq, Repr

/-- A declared element (or section) template stored in a page's or
section's `elements` / `section` map.  `ancestors` is the owning-section
chain (outermost first), empty for elements declared directly on a page. -/
structure DeclElem where
  selector : String
  locateStrategy : Option String
  pseudoSelector : Option String
  ancestors : List Node
deriving DecidableEq, Repr

/-- The owning page or section of a command (`this.parent` of a `Command`).
`ctorName` models `parent.constructor.name`; `isSectionInst` models
`parent instanceof Section`.  `sectionMap` models the source's `section`
property (a Lean keyword).  `ownPropNames` are the own enumerable property
names copied by `Object.assign`; `protoProps` are the own property names of
the parent's prototype. -/
structure Parent where
  name : String
  ctorName : String
  isSectionInst : Bool
  locator : Node
  ancestors : List Node
  elements : List (String × DeclElem)
  sectionMap : List (String × DeclElem)
  ownPropNames : List String
  protoProps : List String
deriving DecidableEq, Repr

/-- The mutable state of a `Command` instance
(`parent` is threaded separately). -/
structure Cmd where
  commandName : String
  isChaiAssertion : Bool
  isES6Async : Bool
  isUserDefined : Bool
  onlyLocateSectionsRecursively : Bool := false
deriving DecidableEq, Repr

/-- The client object reachable from the call context
(`this.client || self.parent.client || {}`). -/
structure Client where
  isES6AsyncTestcase : Bool
deriving DecidableEq, Repr

/-- A promise value: `resolutionId` identifies the eventual resolution
value (unchanged by property augmentation), `props` the own property names
currently present on the promise object. -/
structure PromiseVal where
  resolutionId : Nat
  props : List String
deriving DecidableEq, Repr

/-- The value produced by the wrapped command function. -/
inductive CmdResult where
  | promise (p : PromiseVal)
  | plain (id : Nat)
deriving DecidableEq, Repr

/-- What the closure built by `createWrapper` returns to the caller. -/
inductive WrapperReturn where
  | raw (r : CmdResult)
  | augmentedPromise (p : PromiseVal)
  | parentObj
deriving DecidableEq, Repr

/-- The error thrown by `Command.validate`.  `available` is the
`showAvailable` list the message is assembled from; `message` is the full
formatted message string. -/
structure LookupErr where
  message : String
  available : List String
deriving DecidableEq, Repr

/-- The `TypeError` thrown by `CommandLoader.addCommand` on duplicate
registration, with its `displayed` / `showTrace` flags. -/
structure DupErr where
  message : String
  displayed : Bool
  showTrace : Bool
deriving DecidableEq, Repr

/-- Modelled from the spec: the external API registries that are not part
of the sources — `Api.isElementCommand`, `Api.getElementsCommandsStrict`,
`ScopedElementApi.isScopedElementCommand` and the set of valid locate
strategy names (`Utils.LocateStrategy.isValid`), each modelled as a finite
list of names. -/
structure ApiModel where
  elementCommands : List String
  elementCommandsStrict : List String
  scopedElementCommands : List String
  validStrategies : List String
deriving DecidableEq, Repr

/-- A JavaScript argument value, restricted to the shapes the wrapper
inspects: `null`/`undefined`, strings, numbers, booleans, arrays, objects
with a string `selector` field (`desc`), other plain objects, the packed
`{args: [...]}` convention, and resolved element objects. -/
inductive ArgVal where
  | nullv
  | str (s : String)
  | num (n : Int)
  | boolv (b : Bool)
  | arrv
  | desc (sel : String) (locateStrategy : Option String)
  | objNoSel
  | structuredArgs (inner : List ArgVal)
  | elem (e : RElement)

/-- Association-list lookup modelling `map[key]` on a plain object. -/
def lookupAssoc (m : List (String × DeclElem)) (k : String) : Option DeclElem :=
  match m with
  | [] => none
  | (k', v) :: rest => if k' = k then some v else lookupAssoc rest k

/-- Association-list update modelling `map[key] = v` for a key already
present (later duplicates of the key are untouched, as the first entry
shadows them on lookup). -/
def updateAssoc (m : List (String × DeclElem)) (k : String) (v : DeclElem) :
    List (String × DeclElem) :=
  match m with
  | [] => []
  | (k', w) :: rest => if k' = k then (k', v) :: rest else (k', w) :: updateAssoc rest k v

/-- The declared key list of a map, modelling `Object.keys`. -/
def assocKeys (m : List (String × DeclElem)) : List String :=
  m.map Prod.fst

theorem lookupAssoc_updateAssoc_ne (m : List (String × DeclElem)) (k k' : String)
    (v : DeclElem) (h : k' ≠ k) :
    lookupAssoc (updateAssoc m k v) k' = lookupAssoc m k' := by
  induction m with
  | nil => rfl
  | cons hd tl ih =>
    obtain ⟨k₀, w⟩ := hd
    by_cases hk : k₀ = k
    · subst hk
      have hne : k₀ ≠ k' := fun h' => h h'.symm
      simp [updateAssoc, lookupAssoc, hne]
    · simp only [updateAssoc, if_neg hk, lookupAssoc]
      by_cases hk' : k₀ = k'
      · simp [hk']
      · simp [hk', ih]

theorem lookupAssoc_updateAssoc_self (m : List (String × DeclElem)) (k : String)
    (v : DeclElem) (h : (lookupAssoc m k).isSome) :
    lookupAssoc (updateAssoc m k v) k = some v := by
  induction m with
  | nil => simp [lookupAssoc] at h
  | cons hd tl ih =>
    obtain ⟨k₀, w⟩ := hd
    by_cases hk : k₀ = k
    · simp [updateAssoc, lookupAssoc, hk]
    · simp only [lookupAssoc, if_neg hk] at h
      simp [updateAssoc, lookupAssoc, hk, ih h]

/-- `split(':')` over a character list (structurally recursive so that
concrete inputs evaluate inside the kernel). -/
def splitColonList : List Char → List (List Char)
  | [] => [[]]
  | c :: rest =>
    let r := splitColonList rest
    if c = ':' then [] :: r
    else
      match r with
      | h :: t => (c :: h) :: t
      | [] => [[c]]

/-- `selector.substring(1).split(':')`: the name sections of an `@name`
reference string. -/
def nameSectionsOf (s : String) : List String :=
  (splitColonList (s.data.drop 1)).map (fun cs => String.mk cs)

/-- `s.startsWith('@')` (first-character test, structurally computable). -/
def startsWithAtSign (s : String) : Bool :=
  match s.data with
  | [] => false
  | c :: _ => c == '@'

/-- JavaScript truthiness of an argument value (`!item`). -/
def falsyArg : ArgVal → Bool
  | .nullv => true
  | .str s => s = ""
  | .num n => n = 0
  | .boolv b => !b
  | _ => false

/-- `Array.isArray(item)`. -/
def isArrayArg : ArgVal → Bool
  | .arrv => true
  | _ => false

/-- `Utils.isObject(item)` (a non-null, non-primitive value; arrays are
objects too but are filtered out before this test is reached). -/
def isObjectArg : ArgVal → Bool
  | .desc _ _ => true
  | .objNoSel => true
  | .structuredArgs _ => true
  | .elem _ => true
  | .arrv => true
  | _ => false

/-- `Utils.isString(item)`. -/
def isStringArg : ArgVal → Bool
  | .str _ => true
  | _ => false

/-- `item.hasOwnProperty('selector') && Utils.isString(item.selector)`
for an object argument. -/
def hasStringSelectorField : ArgVal → Bool
  | .desc _ _ => true
  | .elem e =>
    match e.selector with
    | .str _ => true
    | .chain _ => false
  | _ => false

/-- `item.startsWith('@')` for a string argument. -/
def startsWithAt : ArgVal → Bool
  | .str s => startsWithAtSign s
  | _ => false

/-- `Api.isElementCommand(commandName)`.  Modelled from the spec: the
external registry of built-in element command names. -/
def ApiModel.isElementCommand (api : ApiModel) (commandName : String) : Bool :=
  api.elementCommands.contains commandName

/-- `ScopedElementApi.isScopedElementCommand(commandName)`.  Modelled from
the spec: the scoped element accessor command family. -/
def ApiModel.isScopedElementCommand (api : ApiModel) (commandName : String) : Bool :=
  api.scopedElementCommands.contains commandName

/-- `Utils.LocateStrategy.isValid(value)`.  Modelled from the spec: true
exactly when the value is one of the known locate strategy names. -/
def ApiModel.locateStrategyIsValid (api : ApiModel) (v : ArgVal) : Bool :=
  match v with
  | .str s => api.validStrategies.contains s
  | _ => false

/-- `Command.isUserDefinedElementCommand(commandName)`:
`!ApiLoader.getElementsCommandsStrict().includes(commandName)`. -/
def isUserDefinedElementCommand (api : ApiModel) (commandName : String) : Bool :=
  !api.elementCommandsStrict.contains commandName

/-- The `Command` constructor. -/
def mkCommand (api : ApiModel) (commandName : String) (isChaiAssertion : Bool)
    (isES6Async : Bool := false) : Cmd :=
  { commandName := commandName
    isChaiAssertion := isChaiAssertion
    isES6Async := isES6Async
    isUserDefined := isUserDefinedElementCommand api commandName
    onlyLocateSectionsRecursively := false }

/-- `Command.isPossibleElementSelector(item, commandName)`: false for
falsy values and arrays; for objects, true iff the object has a string
`selector` field; for strings, true iff the string starts with `@` or the
command is a (scoped) element command. -/
def isPossibleElementSelector (api : ApiModel) (item : ArgVal)
    (commandName : String) : Bool :=
  if falsyArg item then false
  else if isArrayArg item then false
  else if isObjectArg item then hasStringSelectorField item
  else
    isStringArg item &&
      (startsWithAt item || api.isElementCommand commandName ||
        api.isScopedElementCommand commandName)

/-- The string carried by a string argument (callers guard with
`Utils.isString`). -/
def argStringD (v : ArgVal) : String :=
  match v with
  | .str s => s
  | _ => ""

/-- `Command.getSelectorFromArgs(args)`: returns the candidate selector
from `args[0]`, converting the `(strategy, selector)` string pair calling
convention (`LocateStrategy.isValid(args[0]) && Utils.isString(args[1])`)
into a descriptor, or `none` when `args[0]` is not a possible element
selector. -/
def getSelectorFromArgs (api : ApiModel) (commandName : String)
    (args : List ArgVal) : Option ArgVal :=
  let selectorArg := args.headD .nullv
  if isPossibleElementSelector api selectorArg commandName then
    if api.locateStrategyIsValid selectorArg &&
        isStringArg ((args.drop 1).headD .nullv) then
      some (.desc (argStringD ((args.drop 1).headD .nullv)) (some (argStringD selectorArg)))
    else
      some selectorArg
  else
    none

/-- Modelled from the spec: `Element.createFromSelector` builds a
provisional Element from a raw string locator or a descriptor; a value
that is already an Element is kept. -/
def createFromSelector : ArgVal → RElement
  | .str s => { selector := .str s, locateStrategy := none, pseudoSelector := none, ancestors := [] }
  | .desc sel strat =>
    { selector := .str sel, locateStrategy := strat, pseudoSelector := none, ancestors := [] }
  | .elem e => e
  | _ => { selector := .str "", locateStrategy := none, pseudoSelector := none, ancestors := [] }

/-- `element.hasElementSelector()`: the selector string starts with `@`. -/
def hasElementSelector (e : RElement) : Bool :=
  match e.selector with
  | .str s => startsWithAtSign s
  | .chain _ => false

/-- The flat locate descriptor of an element whose selector is a plain
string (the shape recursion chains store). -/
def toNode (e : RElement) : Node :=
  { selector :=
      match e.selector with
      | .str s => s
      | .chain _ => ""
    locateStrategy := e.locateStrategy
    pseudoSelector := e.pseudoSelector }

/-- Modelled from the spec: `Element.copyDefaults(target, defaults)`
copies the default selector properties (locate strategy, pseudo selector
and the owning-section back-reference) from the looked-up element onto the
provisional one where the provisional one does not set them. -/
def copyDefaults (target : RElement) (defaults : DeclElem) : RElement :=
  { target with
    locateStrategy :=
      match target.locateStrategy with
      | none => defaults.locateStrategy
      | some s => some s
    pseudoSelector :=
      match target.pseudoSelector with
      | none => defaults.pseudoSelector
      | some s => some s
    ancestors :=
      match target.ancestors with
      | [] => defaults.ancestors
      | xs => xs }

/-- Modelled from the spec: `element.getRecursiveLookupElement()` returns,
for an element owned by a section, the fully materialised recursive chain
(its ancestor sections' locators followed by the element itself) under the
synthetic `recursion` strategy, and `null` for an element with no section
ancestry. -/
def getRecursiveLookupElement (e : RElement) : Option RElement :=
  match e.ancestors with
  | [] => none
  | xs =>
    some
      { selector := .chain (xs ++ [toNode e])
        locateStrategy := some "recursion"
        pseudoSelector := none
        ancestors := [] }

/-- JavaScript string interpolation of a nullable strategy
(`${strategy}` prints `null` for the null value). -/
def showStrategyOpt : Option String → String
  | none => "null"
  | some s => s

/-- JavaScript truthiness of a nullable string
(`null` and the empty string are falsy). -/
def truthyOpt : Option String → Bool
  | none => false
  | some s => s ≠ ""

/-- The lookup type tag: `Command.TYPE_ELEMENT` / `Command.TYPE_SECTION`. -/
inductive LookupType where
  | element
  | sectionType
deriving DecidableEq, Repr

/-- The `switch`-selected declaration map of `Command.validate`. -/
def lookupTarget (parent : Parent) : LookupType → List (String × DeclElem)
  | .element => parent.elements
  | .sectionType => parent.sectionMap

/-- The `switch`-selected `typeAvailable` label of `Command.validate`. -/
def typeAvailableLabel : LookupType → String
  | .element => "elements"
  | .sectionType => "sections"

/-- The `switch`-selected message prefix of `Command.validate`. -/
def prefixLabelOf : LookupType → String
  | .element => "Element"
  | .sectionType => "Section"

/-- `Command.validate(elementOrSection, strategy, type)`: checks that the
name is declared (and, when a strategy filter is supplied, that the
declared locate strategy is set and equal to it) and otherwise builds the
lookup error whose message enumerates every declared name, annotated with
its locate strategy exactly when a filter was supplied. -/
def validate (parent : Parent) (elementOrSection : String)
    (strategy : Option String) (ty : LookupType) : Option LookupErr :=
  let target := lookupTarget parent ty
  let typeAvailable := typeAvailableLabel ty
  let prefixLabel := prefixLabelOf ty
  let isValid :=
    match lookupAssoc target elementOrSection with
    | none => false
    | some d =>
      if truthyOpt strategy then
        truthyOpt d.locateStrategy && d.locateStrategy == strategy
      else
        true
  if isValid then
    none
  else
    let showStrategy :=
      if truthyOpt strategy then
        "[locateStrategy=\x27" ++ showStrategyOpt strategy ++ "\x27]"
      else
        ""
    let showAvailable :=
      if truthyOpt strategy then
        (assocKeys target).map fun item =>
          item ++ "[locateStrategy=\x27" ++
            showStrategyOpt ((lookupAssoc target item).bind DeclElem.locateStrategy) ++
            "\x27]"
      else
        assocKeys target
    some
      { message :=
          prefixLabel ++ " \x22" ++ elementOrSection ++ showStrategy ++
            "\x22 was not found in \x22" ++ parent.name ++ "\x22. Available " ++
            typeAvailable ++ ": " ++ String.intercalate ", " showAvailable
        available := showAvailable }

/-- `Command.getElement(elementName, strategy)`: validate, then return the
declared element. -/
def getElement (parent : Parent) (elementName : String)
    (strategy : Option String := none) : Except LookupErr DeclElem :=
  match validate parent elementName strategy .element with
  | some e => .error e
  | none =>
    match lookupAssoc parent.elements elementName with
    | some d => .ok d
    | none => .error { message := "", available := [] }

/-- `Command.getSection(sectionName, strategy)`: validate, then return the
declared section. -/
def getSection (parent : Parent) (sectionName : String)
    (strategy : Option String := none) : Except LookupErr DeclElem :=
  match validate parent sectionName strategy .sectionType with
  | some e => .error e
  | none =>
    match lookupAssoc parent.sectionMap sectionName with
    | some d => .ok d
    | none => .error { message := "", available := [] }

/-- The selector string of a provisional element
(provisional elements always carry string selectors). -/
def selectorString (e : RElement) : String :=
  match e.selector with
  | .str s => s
  | .chain _ => ""

/-- `nameSections[1] || null`: the optional pseudo selector after the
first `:`, with the empty string collapsing to `null`. -/
def pseudoOfSections (nameSections : List String) : Option String :=
  match nameSections.get? 1 with
  | some s => if s = "" then none else some s
  | none => none

/-- The explicit strategy carried by a descriptor selector
(`Utils.isObject(selector) && selector.locateStrategy || null`). -/
def strategyOfSelector (selector : ArgVal) : Option String :=
  match selector with
  | .desc _ strat =>
    match strat with
    | some "" => none
    | x => x
  | .elem e =>
    match e.locateStrategy with
    | some "" => none
    | x => x
  | _ => none

/-- `Command.parseElementSelector(args)`.  Resolves an `@name` reference in
`args[0]` against the owning page's or section's declared maps, or scopes a
literal selector to the owning section with a recursion chain.  The
JavaScript method mutates the command instance (the
`onlyLocateSectionsRecursively` flag), the parent's declaration maps (the
looked-up entry's `pseudoSelector`) and the argument array; all three are
threaded explicitly. -/
def parseElementSelector (api : ApiModel) (c : Cmd) (parent : Parent)
    (args : List ArgVal) : Except LookupErr (Cmd × Parent × List ArgVal) :=
  match getSelectorFromArgs api c.commandName args with
  | none => .ok (c, parent, args)
  | some selector =>
    let inputElement := createFromSelector selector
    if hasElementSelector inputElement then
      let nameSections := nameSectionsOf (selectorString inputElement)
      let name := nameSections.headD ""
      let pseudoSelector := pseudoOfSections nameSections
      let isSectionSelector := c.isChaiAssertion && c.commandName == "section"
      let strategy := strategyOfSelector selector
      let lookupResult :=
        if isSectionSelector then getSection parent name strategy
        else getElement parent name strategy
      match lookupResult with
      | .error e => .error e
      | .ok d =>
        let d' := { d with pseudoSelector := pseudoSelector }
        let parent' :=
          if isSectionSelector then
            { parent with sectionMap := updateAssoc parent.sectionMap name d' }
          else
            { parent with elements := updateAssoc parent.elements name d' }
        let merged := copyDefaults inputElement d'
        let merged' :=
          { merged with locateStrategy := d'.locateStrategy, selector := .str d'.selector }
        let finalElement := (getRecursiveLookupElement merged').getD merged'
        .ok (c, parent', args.set 0 (.elem finalElement))
    else
      if parent.isSectionInst then
        let inputElement' :=
          { inputElement with ancestors := parent.ancestors ++ [parent.locator] }
        let finalElement :=
          (getRecursiveLookupElement inputElement').getD
            { selector := .chain [parent.locator, toNode inputElement']
              locateStrategy := some "recursion"
              pseudoSelector := none
              ancestors := [] }
        let c' :=
          if api.isScopedElementCommand c.commandName then
            { c with onlyLocateSectionsRecursively := true }
          else
            c
        .ok (c', parent, args.set 0 (.elem finalElement))
      else
        .ok (c, parent, args)

/-- The observable effect of invoking the wrapped command function: the
argument list it receives and the context it is applied to. -/
structure Invocation where
  fnArgs : List ArgVal
  contextId : Nat

/-- `Command.executeCommand(commandFn, args, context)`: unwraps a packed
`{args: [...]}` first argument, runs selector resolution on the unwrapped
list, then applies the command function to the original (possibly
structured) argument list and the given context.  A resolution error
propagates before any invocation happens. -/
def executeCommand (api : ApiModel) (c : Cmd) (parent : Parent)
    (args : List ArgVal) (contextId : Nat) :
    Except LookupErr (Cmd × Parent × Invocation) :=
  match args with
  | .structuredArgs inner :: rest =>
    match parseElementSelector api c parent inner with
    | .error e => .error e
    | .ok (c', parent', inner') =>
      .ok (c', parent', { fnArgs := .structuredArgs inner' :: rest, contextId := contextId })
  | _ =>
    match parseElementSelector api c parent args with
    | .error e => .error e
    | .ok (c', parent', args') =>
      .ok (c', parent', { fnArgs := args', contextId := contextId })

/-- `Object.assign(result, self.parent)`: appends the parent's own
enumerable property names to the promise object. -/
def assignParentProps (p : PromiseVal) (parent : Parent) : PromiseVal :=
  { p with props := p.props ++ parent.ownPropNames }

/-- The `Object.getOwnPropertyNames(parentPrototype).forEach` loop of
`createWrapper`: defines each prototype property on the promise, skipping
`constructor`. -/
def addPrototypeProps (p : PromiseVal) (parent : Parent) : PromiseVal :=
  parent.protoProps.foldl
    (fun acc propertyName =>
      if propertyName = "constructor" then acc
      else { acc with props := acc.props ++ [propertyName] })
    p

/-- The return-value classification of the closure built by
`Command.createWrapper` (applied after `executeCommand` has produced
`result`): assertions return the raw result; a promise produced on a Page
or inside an ES6-async test context is augmented in place with the
parent's properties and returned; everything else returns the parent. -/
def createWrapperReturn (c : Cmd) (parent : Parent) (client : Client)
    (result : CmdResult) : WrapperReturn :=
  if c.isChaiAssertion then
    .raw result
  else
    match result with
    | .promise p =>
      if parent.ctorName = "Page" || client.isES6AsyncTestcase then
        .augmentedPromise (addPrototypeProps (assignParentProps p parent) parent)
      else
        .parentObj
    | .plain _ => .parentObj

/-- The path taken by the closure built by
`CommandLoader.wrapElementCommand` after selector resolution. -/
inductive ScopedPath where
  | delegated (popped : RElement) (origArgs : List ArgVal)
  | direct (args : List ArgVal)

/-- One invocation of the closure built by
`CommandLoader.wrapElementCommand`: resolve the selector through the
shared `Command` instance, then — when the instance's
`onlyLocateSectionsRecursively` flag is set — pop the final segment off
the recursion chain and delegate the original arguments, otherwise call
the original function with the resolved arguments.  The shared `Command`
state is threaded in and out, as the closure reuses one instance across
calls. -/
def wrapElementCommandCall (api : ApiModel) (c : Cmd) (parent : Parent)
    (args : List ArgVal) : Except LookupErr (Cmd × Parent × ScopedPath) :=
  let origArgs := args
  match parseElementSelector api c parent args with
  | .error e => .error e
  | .ok (c', parent', args') =>
    if c'.onlyLocateSectionsRecursively then
      let popped :=
        match args'.headD .nullv with
        | .elem e =>
          match e.selector with
          | .chain xs => { e with selector := RSel.chain xs.dropLast }
          | _ => e
        | _ =>
          { selector := RSel.str "", locateStrategy := none,
            pseudoSelector := none, ancestors := [] }
      .ok (c', parent', .delegated popped origArgs)
    else
      .ok (c', parent', .direct args')

/-- A command function value produced by the external loader:
`fnId` identifies the function, `isES6AsyncFn` models
`Utils.isES6AsyncFn` (whether it is declared as an ES6 async function). -/
structure FnVal where
  fnId : Nat
  isES6AsyncFn : Bool
deriving DecidableEq, Repr

/-- A top-level value in the map returned by the loader: a command
function or a namespace object of command functions. -/
inductive CommandVal where
  | fnv (f : FnVal)
  | nsv (entries : List (String × FnVal))
deriving DecidableEq, Repr

/-- A registered command on a target: the `Command`-wrapped closure
produced by `addCommand`, recording the wrapped function and the flags the
`Command` instance was constructed with. -/
structure RegEntry where
  fnId : Nat
  commandName : String
  isChaiAssertion : Bool
  isES6Async : Bool
deriving DecidableEq, Repr

/-- A property installed on a registration target: a wrapped command or a
namespace sub-object holding wrapped commands. -/
inductive TargetVal where
  | cmdEntry (e : RegEntry)
  | namespaceObj (entries : List (String × RegEntry))
deriving DecidableEq, Repr

/-- Lookup on a registration target (`target[commandName]`). -/
def lookupTV (m : List (String × TargetVal)) (k : String) : Option TargetVal :=
  match m with
  | [] => none
  | (k', v) :: rest => if k' = k then some v else lookupTV rest k

/-- Assignment on a registration target (`target[commandName] = v`),
inserting the key when absent. -/
def setTV (m : List (String × TargetVal)) (k : String) (v : TargetVal) :
    List (String × TargetVal) :=
  match m with
  | [] => [(k, v)]
  | (k', w) :: rest => if k' = k then (k', v) :: rest else (k', w) :: setTV rest k v

/-- Lookup inside a namespace sub-object. -/
def lookupNS (m : List (String × RegEntry)) (k : String) : Option RegEntry :=
  match m with
  | [] => none
  | (k', v) :: rest => if k' = k then some v else lookupNS rest k

/-- Assignment inside a namespace sub-object. -/
def setNS (m : List (String × RegEntry)) (k : String) (v : RegEntry) :
    List (String × RegEntry) :=
  match m with
  | [] => [(k, v)]
  | (k', w) :: rest => if k' = k then (k', v) :: rest else (k', w) :: setNS rest k v

/-- `ALLOWED_NAMESPACES`. -/
def ALLOWED_NAMESPACES : List String :=
  ["alerts", "cookies", "document", "assert", "verify", "expect"]

/-- `isAllowedNamespace(commandName)`. -/
def isAllowedNamespace (commandName : String) : Bool :=
  ALLOWED_NAMESPACES.contains commandName

/-- The duplicate-registration message of `CommandLoader.addCommand`. -/
def dupMessage (commandName : String) : String :=
  "Error while loading the page object commands: the command \x22" ++
    commandName ++ "\x22 is already defined."

/-- The registration options record taken by `CommandLoader.addCommand`. -/
structure AddOpts where
  commandName : String
  fnId : Nat
  isChaiAssertion : Bool
  isES6Async : Bool := false
  overwrite : Bool := false
deriving DecidableEq, Repr

/-- `CommandLoader.addCommand` together with the caller's assignment of
its return value onto the target: when the name is already defined and
`overwrite` was not requested, the duplicate `TypeError` (flagged
`displayed: false`, `showTrace: false`) is thrown before any assignment,
leaving the target as it was; otherwise the `Command`-wrapped function is
stored under the name. -/
def addCommand (target : List (String × TargetVal)) (o : AddOpts) :
    List (String × TargetVal) × Option DupErr :=
  if (lookupTV target o.commandName).isSome && !o.overwrite then
    (target, some { message := dupMessage o.commandName, displayed := false, showTrace := false })
  else
    (setTV target o.commandName
        (.cmdEntry
          { fnId := o.fnId, commandName := o.commandName,
            isChaiAssertion := o.isChaiAssertion, isES6Async := o.isES6Async }),
      none)

/-- `addCommand` specialised to a namespace sub-object target. -/
def addCommandNS (target : List (String × RegEntry)) (o : AddOpts) :
    List (String × RegEntry) × Option DupErr :=
  if (lookupNS target o.commandName).isSome && !o.overwrite then
    (target, some { message := dupMessage o.commandName, displayed := false, showTrace := false })
  else
    (setNS target o.commandName
        { fnId := o.fnId, commandName := o.commandName,
          isChaiAssertion := o.isChaiAssertion, isES6Async := o.isES6Async },
      none)

/-- The inner loop of the allowed-namespace branch of
`applyCommandsToTarget`: registers every name of the namespace object into
the sub-object, aborting on a duplicate. -/
def addNamespaceCommands (sub : List (String × RegEntry)) (isChai : Bool) :
    List (String × FnVal) → List (String × RegEntry) × Option DupErr
  | [] => (sub, none)
  | (nsCommandName, f) :: rest =>
    match addCommandNS sub
        { commandName := nsCommandName, fnId := f.fnId,
          isChaiAssertion := isChai, isES6Async := false } with
    | (sub', some e) => (sub', some e)
    | (sub', none) => addNamespaceCommands sub' isChai rest

/-- One `forEach` step of `CommandLoader.applyCommandsToTarget`:
an allowed namespace name distributes its inner names into a sub-object
(`target[commandName] = target[commandName] || {}`, then one `addCommand`
per inner name; assigning properties onto a pre-existing function-valued
slot is modelled as a fresh namespace object); any other object-valued
name is skipped; any other function-valued name is registered directly
with `isES6Async` inferred from the function. -/
def applyCommandStep (target : List (String × TargetVal))
    (commandName : String) (v : CommandVal) :
    List (String × TargetVal) × Option DupErr :=
  if isAllowedNamespace commandName then
    let sub :=
      match lookupTV target commandName with
      | some (.namespaceObj es) => es
      | _ => []
    let isChai := commandName == "expect"
    match v with
    | .nsv entries =>
      match addNamespaceCommands sub isChai entries with
      | (sub', err) => (setTV target commandName (.namespaceObj sub'), err)
    | .fnv _ =>
      match lookupTV target commandName with
      | some _ => (target, none)
      | none => (setTV target commandName (.namespaceObj []), none)
  else
    match v with
    | .nsv _ => (target, none)
    | .fnv f =>
      addCommand target
        { commandName := commandName, fnId := f.fnId,
          isChaiAssertion := false, isES6Async := f.isES6AsyncFn }

/-- `CommandLoader.applyCommandsToTarget(parent, target, commands)`:
walks the loader's map in order, applying `applyCommandStep`; a thrown
duplicate error aborts the walk. -/
def applyCommandsToTarget (target : List (String × TargetVal)) :
    List (String × CommandVal) → List (String × TargetVal) × Option DupErr
  | [] => (target, none)
  | (commandName, v) :: rest =>
    match applyCommandStep target commandName v with
    | (target', some e) => (target', some e)
    | (target', none) => applyCommandsToTarget target' rest

theorem lookupTV_setTV_self (m : List (String × TargetVal)) (k : String) (v : TargetVal) :
    lookupTV (setTV m k v) k = some v := by
  induction m with
  | nil => simp [setTV, lookupTV]
  | cons hd tl ih =>
    obtain ⟨k₀, w⟩ := hd
    by_cases hk : k₀ = k
    · simp [setTV, lookupTV, hk]
    · simp [setTV, lookupTV, hk, ih]

theorem lookupTV_setTV_ne (m : List (String × TargetVal)) (k k' : String)
    (v : TargetVal) (h : k' ≠ k) :
    lookupTV (setTV m k v) k' = lookupTV m k' := by
  induction m with
  | nil =>
    have hne : k ≠ k' := fun h' => h h'.symm
    simp [setTV, lookupTV, hne]
  | cons hd tl ih =>
    obtain ⟨k₀, w⟩ := hd
    by_cases hk : k₀ = k
    · subst hk
      have hne : k₀ ≠ k' := fun h' => h h'.symm
      simp [setTV, lookupTV, hne]
    · simp only [setTV, if_neg hk, lookupTV]
      by_cases hk' : k₀ = k'
      · simp [hk']
      · simp [hk', ih]

theorem addPrototypeProps_eq_filter (parent : Parent) (p : PromiseVal) :
    addPrototypeProps p parent =
      { p with props := p.props ++ parent.protoProps.filter (fun n => !(n == "constructor")) } := by
  unfold addPrototypeProps
  generalize parent.protoProps = ps
  induction ps generalizing p with
  | nil => simp
  | cons hd tl ih =>
    by_cases h : hd = "constructor"
    · subst h
      simp [List.foldl, ih, List.filter]
    · have hb : (hd == "constructor") = false := by
        simp [h]
      simp [List.foldl, ih, List.filter, h, hb, List.append_assoc]

/-- A successful `getElement` returns exactly the declared entry. -/
theorem getElement_ok_lookup (parent : Parent) (nm : String) (strategy : Option String)
    (d : DeclElem) (h : getElement parent nm strategy = .ok d) :
    lookupAssoc parent.elements nm = some d := by
  unfold getElement at h
  cases hv : validate parent nm strategy .element with
  | some e => rw [hv] at h; cases h
  | none =>
    rw [hv] at h
    cases hl : lookupAssoc parent.elements nm with
    | some d' => rw [hl] at h; cases h; rfl
    | none => rw [hl] at h; cases h

/-- A successful `getSection` returns exactly the declared entry. -/
theorem getSection_ok_lookup (parent : Parent) (nm : String) (strategy : Option String)
    (d : DeclElem) (h : getSection parent nm strategy = .ok d) :
    lookupAssoc parent.sectionMap nm = some d := by
  unfold getSection at h
  cases hv : validate parent nm strategy .sectionType with
  | some e => rw [hv] at h; cases h
  | none =>
    rw [hv] at h
    cases hl : lookupAssoc parent.sectionMap nm with
    | some d' => rw [hl] at h; cases h; rfl
    | none => rw [hl] at h; cases h

/-- **C1.** For every invocation of a wrapped command, the value returned
to the caller is classified exactly as the claim states: a chai assertion
returns the wrapped function's result unmodified; a promise result whose
owner is a `Page` or that was produced with `isES6AsyncTestcase` set is
returned itself, augmented with the parent's own properties and with every
own property of the parent's prototype except `constructor`, its
resolution identity untouched; every other case returns the owning parent
object. -/
theorem createWrapper_dual_mode_dispatch (c : Cmd) (parent : Parent) (client : Client)
    (r : CmdResult) :
    createWrapperReturn c parent client r =
      if c.isChaiAssertion then
        WrapperReturn.raw r
      else
        match r with
        | .promise p =>
          if parent.ctorName = "Page" || client.isES6AsyncTestcase then
            WrapperReturn.augmentedPromise
              { resolutionId := p.resolutionId
                props := p.props ++ parent.ownPropNames ++
                  parent.protoProps.filter (fun n => !(n == "constructor")) }
          else
            WrapperReturn.parentObj
        | .plain _ => WrapperReturn.parentObj := by
  unfold createWrapperReturn
  by_cases h : c.isChaiAssertion
  · simp [h]
  · simp only [h, if_false, Bool.false_eq_true]
    cases r with
    | promise p =>
      by_cases h2 : (parent.ctorName = "Page" || client.isES6AsyncTestcase) = true
      · simp [h2, assignParentProps, addPrototypeProps_eq_filter, List.append_assoc]
      · simp [h2]
    | plain i => rfl

/-- Stated from the claim's words: lookup fails exactly when the requested
name is absent from the container's map, or a locate-strategy filter was
supplied and the declared entry's locate strategy differs from it. -/
def lookupFailsSpec (m : List (String × DeclElem)) (nm : String)
    (strategy : Option String) : Bool :=
  match lookupAssoc m nm with
  | none => true
  | some d =>
    match strategy with
    | none => false
    | some s => !(d.locateStrategy == some s)

/-- Stated from the claim's words: the enumeration of every declared name
of the container, annotated with each entry's locate strategy exactly when
a filter was supplied. -/
def availableSpec (m : List (String × DeclElem)) (strategy : Option String) :
    List String :=
  if strategy.isSome then
    (assocKeys m).map fun item =>
      item ++ "[locateStrategy=\x27" ++
        showStrategyOpt ((lookupAssoc m item).bind DeclElem.locateStrategy) ++ "\x27]"
  else
    assocKeys m

/-- The formatted lookup-error message, assembled from the enumeration. -/
def lookupErrMessageSpec (prefixLabel typeAvailable parentName nm : String)
    (strategy : Option String) (avail : List String) : String :=
  prefixLabel ++ " \x22" ++ nm ++
    (if strategy.isSome then
      "[locateStrategy=\x27" ++ showStrategyOpt strategy ++ "\x27]"
    else "") ++
    "\x22 was not found in \x22" ++ parentName ++ "\x22. Available " ++
    typeAvailable ++ ": " ++ String.intercalate ", " avail

/-- The error (if any) of a lookup result. -/
def errOf {α : Type} : Except LookupErr α → Option LookupErr
  | .error e => some e
  | .ok _ => none

theorem truthyOpt_of_ne_empty (strategy : Option String) (hs : strategy ≠ some "") :
    truthyOpt strategy = strategy.isSome := by
  cases strategy with
  | none => rfl
  | some s =>
    have h : s ≠ "" := fun h => hs (by rw [h])
    simp [truthyOpt, h]

theorem truthy_and_beq (dls : Option String) (s : String) (h : s ≠ "") :
    (truthyOpt dls && (dls == some s)) = (dls == some s) := by
  cases dls with
  | none => simp [truthyOpt]
  | some u =>
    by_cases hu : u = s
    · subst hu
      simp [truthyOpt, h]
    · have hb : ((some u : Option String) == some s) = false := by
        simp [hu]
      simp [hb]

theorem validate_spec (parent : Parent) (nm : String) (strategy : Option String)
    (ty : LookupType) (hs : strategy ≠ some "") :
    validate parent nm strategy ty =
      (if lookupFailsSpec (lookupTarget parent ty) nm strategy then
        some
          { message :=
              lookupErrMessageSpec (prefixLabelOf ty) (typeAvailableLabel ty)
                parent.name nm strategy (availableSpec (lookupTarget parent ty) strategy)
            available := availableSpec (lookupTarget parent ty) strategy }
      else none) := by
  simp only [validate, lookupFailsSpec, availableSpec, lookupErrMessageSpec]
  rw [truthyOpt_of_ne_empty strategy hs]
  cases hl : lookupAssoc (lookupTarget parent ty) nm with
  | none =>
    cases strategy with
    | none => simp
    | some s => simp
  | some d =>
    cases strategy with
    | none => simp
    | some s =>
      have hse : s ≠ "" := fun h => hs (by rw [h])
      dsimp only
      rw [truthy_and_beq d.locateStrategy s hse]
      cases hb : (d.locateStrategy == some s) with
      | true => simp
      | false => simp

theorem errOf_getElement_eq (parent : Parent) (nm : String) (strategy : Option String)
    (hs : strategy ≠ some "") :
    errOf (getElement parent nm strategy) =
      (if lookupFailsSpec parent.elements nm strategy then
        some
          { message :=
              lookupErrMessageSpec "Element" "elements" parent.name nm strategy
                (availableSpec parent.elements strategy)
            available := availableSpec parent.elements strategy }
      else none) := by
  unfold getElement
  rw [validate_spec parent nm strategy .element hs]
  simp only [lookupTarget, prefixLabelOf, typeAvailableLabel]
  cases hf : lookupFailsSpec parent.elements nm strategy with
  | true => simp [errOf]
  | false =>
    cases hl : lookupAssoc parent.elements nm with
    | some d => simp [errOf]
    | none =>
      unfold lookupFailsSpec at hf
      rw [hl] at hf
      simp at hf

theorem errOf_getSection_eq (parent : Parent) (nm : String) (strategy : Option String)
    (hs : strategy ≠ some "") :
    errOf (getSection parent nm strategy) =
      (if lookupFailsSpec parent.sectionMap nm strategy then
        some
          { message :=
              lookupErrMessageSpec "Section" "sections" parent.name nm strategy
                (availableSpec parent.sectionMap strategy)
            available := availableSpec parent.sectionMap strategy }
      else none) := by
  unfold getSection
  rw [validate_spec parent nm strategy .sectionType hs]
  simp only [lookupTarget, prefixLabelOf, typeAvailableLabel]
  cases hf : lookupFailsSpec parent.sectionMap nm strategy with
  | true => simp [errOf]
  | false =>
    cases hl : lookupAssoc parent.sectionMap nm with
    | some d => simp [errOf]
    | none =>
      unfold lookupFailsSpec at hf
      rw [hl] at hf
      simp at hf

/-- **C6.** `getElement` / `getSection` throw a lookup error exactly when
the requested name is absent from the parent's `elements` / `section` map,
or a locate-strategy filter was supplied and the declared entry's locate
strategy differs from it; the thrown error enumerates every declared name
of that container, annotated with each entry's locate strategy exactly
when a filter was supplied, and its message is assembled from that
enumeration. -/
theorem getElement_getSection_error_contract (parent : Parent) (nm : String)
    (strategy : Option String) (hs : strategy ≠ some "") :
    ((errOf (getElement parent nm strategy)).isSome = true ↔
      lookupFailsSpec parent.elements nm strategy = true)
    ∧ (∀ e, errOf (getElement parent nm strategy) = some e →
        e.available = availableSpec parent.elements strategy ∧
        e.message = lookupErrMessageSpec "Element" "elements" parent.name nm strategy
          (availableSpec parent.elements strategy))
    ∧ ((errOf (getSection parent nm strategy)).isSome = true ↔
      lookupFailsSpec parent.sectionMap nm strategy = true)
    ∧ (∀ e, errOf (getSection parent nm strategy) = some e →
        e.available = availableSpec parent.sectionMap strategy ∧
        e.message = lookupErrMessageSpec "Section" "sections" parent.name nm strategy
          (availableSpec parent.sectionMap strategy)) := by
  have h1 := errOf_getElement_eq parent nm strategy hs
  have h2 := errOf_getSection_eq parent nm strategy hs
  refine ⟨?_, ?_, ?_, ?_⟩
  · rw [h1]
    cases lookupFailsSpec parent.elements nm strategy <;> simp
  · rw [h1]
    cases hf : lookupFailsSpec parent.elements nm strategy with
    | false => simp
    | true =>
      intro e he
      simp only [if_true] at he
      simp only [Option.some.injEq] at he
      rw [← he]
      exact ⟨rfl, rfl⟩
  · rw [h2]
    cases lookupFailsSpec parent.sectionMap nm strategy <;> simp
  · rw [h2]
    cases hf : lookupFailsSpec parent.sectionMap nm strategy with
    | false => simp
    | true =>
      intro e he
      simp only [if_true] at he
      simp only [Option.some.injEq] at he
      rw [← he]
      exact ⟨rfl, rfl⟩

/-- A concrete page used to exercise the lookup-error contract. -/
def pageC6 : Parent :=
  { name := "samplePage"
    ctorName := "Page"
    isSectionInst := false
    locator := { selector := "", locateStrategy := none }
    ancestors := []
    elements :=
      [("submit", { selector := "#go", locateStrategy := some "css selector",
                    pseudoSelector := none, ancestors := [] }),
       ("help", { selector := "//a", locateStrategy := some "xpath",
                  pseudoSelector := none, ancestors := [] })]
    sectionMap := []
    ownPropNames := []
    protoProps := [] }

theorem getElement_getSection_error_contract_witness :
    ((errOf (getElement pageC6 "submit" (some "xpath"))).isSome = true ↔
      lookupFailsSpec pageC6.elements "submit" (some "xpath") = true)
    ∧ (∀ e, errOf (getElement pageC6 "submit" (some "xpath")) = some e →
        e.available = availableSpec pageC6.elements (some "xpath") ∧
        e.message = lookupErrMessageSpec "Element" "elements" pageC6.name "submit"
          (some "xpath") (availableSpec pageC6.elements (some "xpath")))
    ∧ ((errOf (getSection pageC6 "submit" (some "xpath"))).isSome = true ↔
      lookupFailsSpec pageC6.sectionMap "submit" (some "xpath") = true)
    ∧ (∀ e, errOf (getSection pageC6 "submit" (some "xpath")) = some e →
        e.available = availableSpec pageC6.sectionMap (some "xpath") ∧
        e.message = lookupErrMessageSpec "Section" "sections" pageC6.name "submit"
          (some "xpath") (availableSpec pageC6.sectionMap (some "xpath"))) :=
  getElement_getSection_error_contract pageC6 "submit" (some "xpath") (by decide)

/-- **C7.** `addCommand` throws the duplicate `TypeError`, carrying
`displayed: false` and `showTrace: false`, whenever the command name
already exists on its target and `overwrite` was not requested, leaving
the target unchanged; with `overwrite` set, the second registration
replaces the first without error. -/
theorem addCommand_duplicate_guard (target : List (String × TargetVal)) (o : AddOpts) :
    ((lookupTV target o.commandName).isSome = true → o.overwrite = false →
      (addCommand target o).1 = target ∧
        ((addCommand target o).2.map fun e => (e.displayed, e.showTrace)) =
          some (false, false))
    ∧ (o.overwrite = true →
      (addCommand target o).2 = none ∧
        lookupTV (addCommand target o).1 o.commandName =
          some
            (.cmdEntry
              { fnId := o.fnId, commandName := o.commandName,
                isChaiAssertion := o.isChaiAssertion, isES6Async := o.isES6Async })) := by
  constructor
  · intro h1 h2
    simp [addCommand, h1, h2]
  · intro h
    simp [addCommand, h, lookupTV_setTV_self]

/-- A target that already holds a `click` command. -/
def targetC7 : List (String × TargetVal) :=
  [("click",
    .cmdEntry { fnId := 1, commandName := "click", isChaiAssertion := false, isES6Async := false })]

/-- A duplicate registration of `click` without `overwrite`. -/
def optsC7 : AddOpts :=
  { commandName := "click", fnId := 2, isChaiAssertion := false }

/-- The same registration with `overwrite` requested. -/
def optsC7o : AddOpts :=
  { commandName := "click", fnId := 2, isChaiAssertion := false, overwrite := true }

theorem addCommand_duplicate_guard_witness :
    ((addCommand targetC7 optsC7).1 = targetC7 ∧
      ((addCommand targetC7 optsC7).2.map fun e => (e.displayed, e.showTrace)) =
        some (false, false))
    ∧ ((addCommand targetC7 optsC7o).2 = none ∧
      lookupTV (addCommand targetC7 optsC7o).1 "click" =
        some
          (.cmdEntry
            { fnId := 2, commandName := "click",
              isChaiAssertion := false, isES6Async := false })) :=
  ⟨(addCommand_duplicate_guard targetC7 optsC7).1 (by decide) (by decide),
    (addCommand_duplicate_guard targetC7 optsC7o).2 (by decide)⟩

/-- **C10.** When a selector-bearing call's first argument is a string
naming a valid locate strategy and its second argument is also a string,
selector extraction treats the pair as the descriptor
`{selector: args[1], locateStrategy: args[0]}` instead of treating
`args[0]` alone as the selector. -/
theorem getSelectorFromArgs_strategy_pair (api : ApiModel) (commandName s t : String)
    (rest : List ArgVal)
    (hsel : isPossibleElementSelector api (.str s) commandName = true)
    (hvalid : api.validStrategies.contains s = true) :
    getSelectorFromArgs api commandName (.str s :: .str t :: rest) =
      some (.desc t (some s)) := by
  have hmem : s ∈ api.validStrategies := by simpa using hvalid
  unfold getSelectorFromArgs
  simp [hsel, ApiModel.locateStrategyIsValid, hmem, isStringArg, argStringD]

/-- An API registry with `click` as an element command. -/
def apiC10 : ApiModel :=
  { elementCommands := ["click"]
    elementCommandsStrict := ["click"]
    scopedElementCommands := []
    validStrategies := ["css selector", "xpath"] }

theorem getSelectorFromArgs_strategy_pair_witness :
    getSelectorFromArgs apiC10 "click" [.str "xpath", .str "//button"] =
      some (.desc "//button" (some "xpath")) :=
  getSelectorFromArgs_strategy_pair apiC10 "click" "xpath" "//button" []
    (by decide) (by decide)

theorem getElement_none_strategy (parent : Parent) (name : String) (d : DeclElem)
    (hlook : lookupAssoc parent.elements name = some d) :
    getElement parent name none = .ok d := by
  unfold getElement validate
  simp [lookupTarget, truthyOpt, hlook]

/-- Stated from the amended claim's words: the element that replaces
`args[0]` when an `@name` reference (with optional `:suffix`) resolves to
the declared entry `d` — for a page-declared entry (no section ancestry),
an element carrying exactly the declared selector and locate strategy with
`pseudoSelector` set iff the suffix form was used; for a section-declared
entry, a recursion chain whose final node carries those declared values
and the pseudo selector. -/
def declaredResolution (d : DeclElem) (pseudo : Option String) : RElement :=
  match d.ancestors with
  | [] =>
    { selector := .str d.selector, locateStrategy := d.locateStrategy,
      pseudoSelector := pseudo, ancestors := [] }
  | xs =>
    { selector :=
        .chain (xs ++
          [{ selector := d.selector, locateStrategy := d.locateStrategy,
             pseudoSelector := pseudo }])
      locateStrategy := some "recursion"
      pseudoSelector := none
      ancestors := [] }

/-- **C2** (amended).  Resolving `@name` (respectively `@name:suffix`) on a
command whose owner declares `name` in its `elements` map replaces
`args[0]` with `declaredResolution`: the declared selector and locate
strategy (force-overwriting the provisional input), `pseudoSelector` set
iff the suffix form was used — wrapped into a recursion chain carrying
those values on its final node when the declared element lives inside a
section — and writes the parsed pseudo selector back onto the declared
entry. -/
theorem parseElementSelector_at_reference (api : ApiModel) (c : Cmd) (parent : Parent)
    (s name : String) (pseudo : Option String) (d : DeclElem) (rest : List ArgVal)
    (hat : startsWithAtSign s = true)
    (hstrat : api.validStrategies.contains s = false)
    (hchai : c.isChaiAssertion = false)
    (hsplit : nameSectionsOf s = name :: pseudo.toList)
    (hq : pseudo ≠ some "")
    (hlook : lookupAssoc parent.elements name = some d) :
    parseElementSelector api c parent (.str s :: rest) =
      .ok (c,
        { parent with
            elements := updateAssoc parent.elements name { d with pseudoSelector := pseudo } },
        .elem (declaredResolution d pseudo) :: rest) := by
  have hne : s ≠ "" := by
    intro h
    subst h
    rw [show startsWithAtSign "" = false from rfl] at hat
    cases hat
  have hnm : s ∉ api.validStrategies := by simpa using hstrat
  have hget : getElement parent name none = .ok d := getElement_none_strategy parent name d hlook
  have hsel : getSelectorFromArgs api c.commandName (ArgVal.str s :: rest) = some (.str s) := by
    unfold getSelectorFromArgs
    simp [isPossibleElementSelector, falsyArg, isArrayArg, isObjectArg, isStringArg,
      startsWithAt, hat, hne, ApiModel.locateStrategyIsValid, hnm]
  unfold parseElementSelector
  rw [hsel]
  simp only [createFromSelector, hasElementSelector, selectorString, hat, if_true]
  rw [hsplit]
  cases pseudo with
  | none =>
    simp only [Option.toList, pseudoOfSections, List.headD, hchai, Bool.false_and,
      strategyOfSelector, List.get?]
    rw [hget]
    simp only [copyDefaults, declaredResolution]
    cases hanc : d.ancestors with
    | nil =>
      simp [getRecursiveLookupElement, hanc, List.set]
    | cons a xs =>
      simp [getRecursiveLookupElement, hanc, toNode, List.set]
  | some q =>
    have hqe : q ≠ "" := fun h => hq (by rw [h])
    simp only [Option.toList, pseudoOfSections, List.headD, hchai, Bool.false_and,
      strategyOfSelector, List.get?, hqe, if_neg]
    rw [hget]
    simp only [copyDefaults, declaredResolution]
    cases hanc : d.ancestors with
    | nil =>
      simp [getRecursiveLookupElement, hanc, List.set, hqe]
    | cons a xs =>
      simp [getRecursiveLookupElement, hanc, toNode, List.set, hqe]

/-- A sample API registry: `click` and `find` are element commands, `find`
belongs to the scoped element accessor family. -/
def apiSample : ApiModel :=
  { elementCommands := ["click", "find"]
    elementCommandsStrict := ["click", "find"]
    scopedElementCommands := ["find"]
    validStrategies := ["css selector", "xpath", "recursion"] }

/-- The locate descriptor of the sample `footer` section. -/
def footerLocator : Node :=
  { selector := "#footer", locateStrategy := some "css selector" }

/-- A sample section owning one declared element `link`. -/
def sectionFooter : Parent :=
  { name := "footer"
    ctorName := "Section"
    isSectionInst := true
    locator := footerLocator
    ancestors := []
    elements :=
      [("link", { selector := "a.link", locateStrategy := some "css selector",
                  pseudoSelector := none, ancestors := [footerLocator] })]
    sectionMap := []
    ownPropNames := []
    protoProps := [] }

/-- The declared `submit` element of the sample page. -/
def dSubmit : DeclElem :=
  { selector := "#go", locateStrategy := none, pseudoSelector := none, ancestors := [] }

/-- A sample page owning one declared element `submit`. -/
def pageSample : Parent :=
  { name := "samplePage"
    ctorName := "Page"
    isSectionInst := false
    locator := { selector := "", locateStrategy := none }
    ancestors := []
    elements := [("submit", dSubmit)]
    sectionMap := []
    ownPropNames := []
    protoProps := [] }

/-- The sample `click` command wrapper state. -/
def cmdClick : Cmd := mkCommand apiSample "click" false

/-- The sample `find` scoped element command wrapper state. -/
def cmdFind : Cmd := mkCommand apiSample "find" false

/-- **C2** counterexample: for an element declared in a *section's*
`elements` map, resolving `@link` does not leave `args[0]` with the
declared selector and locate strategy — the element is promoted to a
recursion chain, so its `locateStrategy` is `recursion` while the
declaration says `css selector`. -/
theorem parseElementSelector_at_reference_counterexample :
    (match parseElementSelector apiSample cmdClick sectionFooter [.str "@link"] with
     | .ok (_, _, .elem e :: _) => some e.locateStrategy
     | _ => none) = some (some "recursion")
    ∧ (lookupAssoc sectionFooter.elements "link").map DeclElem.locateStrategy =
        some (some "css selector") :=
  ⟨rfl, rfl⟩

theorem parseElementSelector_at_reference_witness :
    parseElementSelector apiSample cmdClick pageSample [.str "@submit"] =
      .ok (cmdClick,
        { pageSample with
            elements := updateAssoc pageSample.elements "submit" dSubmit },
        [.elem (declaredResolution dSubmit none)]) :=
  parseElementSelector_at_reference apiSample cmdClick pageSample "@submit" "submit"
    none dSubmit [] rfl rfl rfl rfl (by decide) rfl

/-- **C3** (amended).  Selector resolution never modifies any declared
entry other than the one it looks up, and on that one it may change only
`pseudoSelector`: every successful `parseElementSelector` run either
leaves both declaration maps exactly as they were, or rewrites exactly one
map as a single update of the looked-up name whose new entry differs from
the stored one only in `pseudoSelector`, every other key's entry being
unchanged and the other map untouched. -/
theorem parseElementSelector_frame (api : ApiModel) (c : Cmd) (parent : Parent)
    (args : List ArgVal) (c' : Cmd) (p' : Parent) (a' : List ArgVal)
    (h : parseElementSelector api c parent args = .ok (c', p', a')) :
    (p'.elements = parent.elements ∧ p'.sectionMap = parent.sectionMap)
    ∨ (∃ name d pseudo,
        lookupAssoc parent.elements name = some d ∧
        p'.elements = updateAssoc parent.elements name { d with pseudoSelector := pseudo } ∧
        lookupAssoc p'.elements name = some { d with pseudoSelector := pseudo } ∧
        (∀ k, k ≠ name → lookupAssoc p'.elements k = lookupAssoc parent.elements k) ∧
        p'.sectionMap = parent.sectionMap)
    ∨ (∃ name d pseudo,
        lookupAssoc parent.sectionMap name = some d ∧
        p'.sectionMap = updateAssoc parent.sectionMap name { d with pseudoSelector := pseudo } ∧
        lookupAssoc p'.sectionMap name = some { d with pseudoSelector := pseudo } ∧
        (∀ k, k ≠ name → lookupAssoc p'.sectionMap k = lookupAssoc parent.sectionMap k) ∧
        p'.elements = parent.elements) := by
  simp only [parseElementSelector] at h
  split at h
  · simp only [Except.ok.injEq, Prod.mk.injEq] at h
    obtain ⟨-, h2, -⟩ := h
    subst h2
    exact Or.inl ⟨rfl, rfl⟩
  · split at h
    · split at h
      · cases h
      · rename_i d heq
        split at heq
        · rename_i hss
          have hl := getSection_ok_lookup _ _ _ _ heq
          simp only [hss, if_true] at h
          simp only [Except.ok.injEq, Prod.mk.injEq] at h
          obtain ⟨-, h2, -⟩ := h
          subst h2
          refine Or.inr (Or.inr ⟨_, d, _, hl, rfl, ?_, ?_, rfl⟩)
          · exact lookupAssoc_updateAssoc_self _ _ _ (by rw [hl]; rfl)
          · intro k hk
            exact lookupAssoc_updateAssoc_ne _ _ _ _ hk
        · rename_i hss
          have hl := getElement_ok_lookup _ _ _ _ heq
          simp only [hss, if_false] at h
          simp only [Except.ok.injEq, Prod.mk.injEq] at h
          obtain ⟨-, h2, -⟩ := h
          subst h2
          refine Or.inr (Or.inl ⟨_, d, _, hl, rfl, ?_, ?_, rfl⟩)
          · exact lookupAssoc_updateAssoc_self _ _ _ (by rw [hl]; rfl)
          · intro k hk
            exact lookupAssoc_updateAssoc_ne _ _ _ _ hk
    · split at h
      · simp only [Except.ok.injEq, Prod.mk.injEq] at h
        obtain ⟨-, h2, -⟩ := h
        subst h2
        exact Or.inl ⟨rfl, rfl⟩
      · simp only [Except.ok.injEq, Prod.mk.injEq] at h
        obtain ⟨-, h2, -⟩ := h
        subst h2
        exact Or.inl ⟨rfl, rfl⟩

/-- **C3** counterexample: resolving `@submit:hover` writes the parsed
pseudo selector onto the `submit` entry stored in the page's `elements`
map — the declaration maps are not read-only under command invocation. -/
theorem parseElementSelector_mutates_declaration :
    (match parseElementSelector apiSample cmdClick pageSample [.str "@submit:hover"] with
     | .ok (_, p', _) => (lookupAssoc p'.elements "submit").map DeclElem.pseudoSelector
     | _ => none) = some (some "hover")
    ∧ (lookupAssoc pageSample.elements "submit").map DeclElem.pseudoSelector = some none :=
  ⟨rfl, rfl⟩

/-- The page after resolving `@submit:hover` wrote the pseudo selector
back onto the declared entry. -/
def pageSampleHover : Parent :=
  { pageSample with
      elements := updateAssoc pageSample.elements "submit"
        { dSubmit with pseudoSelector := some "hover" } }

theorem parseElementSelector_frame_witness :
    (pageSampleHover.elements = pageSample.elements ∧
      pageSampleHover.sectionMap = pageSample.sectionMap)
    ∨ (∃ name d pseudo,
        lookupAssoc pageSample.elements name = some d ∧
        pageSampleHover.elements =
          updateAssoc pageSample.elements name { d with pseudoSelector := pseudo } ∧
        lookupAssoc pageSampleHover.elements name = some { d with pseudoSelector := pseudo } ∧
        (∀ k, k ≠ name →
          lookupAssoc pageSampleHover.elements k = lookupAssoc pageSample.elements k) ∧
        pageSampleHover.sectionMap = pageSample.sectionMap)
    ∨ (∃ name d pseudo,
        lookupAssoc pageSample.sectionMap name = some d ∧
        pageSampleHover.sectionMap =
          updateAssoc pageSample.sectionMap name { d with pseudoSelector := pseudo } ∧
        lookupAssoc pageSampleHover.sectionMap name = some { d with pseudoSelector := pseudo } ∧
        (∀ k, k ≠ name →
          lookupAssoc pageSampleHover.sectionMap k = lookupAssoc pageSample.sectionMap k) ∧
        pageSampleHover.elements = pageSample.elements) :=
  parseElementSelector_frame apiSample cmdClick pageSample [.str "@submit:hover"]
    cmdClick pageSampleHover
    [.elem (declaredResolution { dSubmit with pseudoSelector := some "hover" } (some "hover"))]
    rfl

theorem getRecursiveLookupElement_append (e : RElement) (xs : List Node) (x : Node)
    (hanc : e.ancestors = xs ++ [x]) :
    getRecursiveLookupElement e =
      some
        { selector := .chain (xs ++ [x] ++ [toNode e])
          locateStrategy := some "recursion"
          pseudoSelector := none
          ancestors := [] } := by
  unfold getRecursiveLookupElement
  rw [hanc]
  cases xs with
  | nil => rfl
  | cons a l => rfl

/-- **C5.** A command owned by a Section, invoked with a literal (non-`@`)
string selector, has `args[0]` replaced by a recursive element whose
locate strategy is `recursion` and whose selector is the ordered ancestor
chain of the owning section followed by its own locator and the literal
element — without the caller constructing the chain.  The
`onlyLocateSectionsRecursively` flag is raised exactly for the scoped
element command family. -/
theorem parseElementSelector_section_literal (api : ApiModel) (c : Cmd) (parent : Parent)
    (s : String) (rest : List ArgVal)
    (hsec : parent.isSectionInst = true)
    (hne : s ≠ "")
    (hat : startsWithAtSign s = false)
    (hcls : (api.isElementCommand c.commandName || api.isScopedElementCommand c.commandName) = true)
    (hstrat : api.validStrategies.contains s = false) :
    parseElementSelector api c parent (.str s :: rest) =
      .ok
        ((if api.isScopedElementCommand c.commandName then
            { c with onlyLocateSectionsRecursively := true }
          else c),
          parent,
          .elem
            { selector := .chain (parent.ancestors ++ [parent.locator,
                { selector := s, locateStrategy := none, pseudoSelector := none }])
              locateStrategy := some "recursion"
              pseudoSelector := none
              ancestors := [] } :: rest) := by
  have hnm : s ∉ api.validStrategies := by simpa using hstrat
  have hsel : getSelectorFromArgs api c.commandName (ArgVal.str s :: rest) = some (.str s) := by
    unfold getSelectorFromArgs
    simp [isPossibleElementSelector, falsyArg, isArrayArg, isObjectArg, isStringArg,
      startsWithAt, hat, hcls, hne, ApiModel.locateStrategyIsValid, hnm]
  unfold parseElementSelector
  rw [hsel]
  simp only [createFromSelector, hasElementSelector, selectorString, hat,
    Bool.false_eq_true, if_false, hsec, if_true]
  rw [getRecursiveLookupElement_append
    { selector := .str s, locateStrategy := none, pseudoSelector := none,
      ancestors := parent.ancestors ++ [parent.locator] }
    parent.ancestors parent.locator rfl]
  simp [toNode, List.append_assoc, List.set]

theorem parseElementSelector_section_literal_witness :
    parseElementSelector apiSample cmdFind sectionFooter [.str "div.item"] =
      .ok ({ cmdFind with onlyLocateSectionsRecursively := true },
        sectionFooter,
        [.elem
          { selector := .chain [footerLocator,
              { selector := "div.item", locateStrategy := none, pseudoSelector := none }]
            locateStrategy := some "recursion"
            pseudoSelector := none
            ancestors := [] }]) :=
  parseElementSelector_section_literal apiSample cmdFind sectionFooter "div.item" []
    rfl (by decide) rfl rfl rfl

/-- Whether an invocation through `wrapElementCommand` took the
pop-ancestor-chain-and-delegate path. -/
def pathDelegated : Except LookupErr (Cmd × Parent × ScopedPath) → Bool
  | .ok (_, _, .delegated _ _) => true
  | _ => false

/-- The shared `Command` instance's flag after an invocation through
`wrapElementCommand`. -/
def cmdFlagAfter : Except LookupErr (Cmd × Parent × ScopedPath) → Option Bool
  | .ok (c, _, _) => some c.onlyLocateSectionsRecursively
  | _ => none

/-- **C4** (violated by the code).  The `onlyLocateSectionsRecursively`
flag is stored on the shared `Command` instance and never reset: a first
call with a literal selector through a scoped element command leaves the
flag raised, so a second call through the same wrapper with an `@name`
reference still takes the pop-and-delegate path, while the identical call
through a fresh wrapper takes the direct path. -/
theorem wrapElementCommand_flag_leak :
    cmdFlagAfter (wrapElementCommandCall apiSample cmdFind sectionFooter [.str "div.item"]) =
      some true
    ∧ pathDelegated (wrapElementCommandCall apiSample cmdFind sectionFooter [.str "div.item"]) =
      true
    ∧ pathDelegated
        (wrapElementCommandCall apiSample
          { cmdFind with onlyLocateSectionsRecursively := true } sectionFooter
          [.str "@link"]) = true
    ∧ pathDelegated (wrapElementCommandCall apiSample cmdFind sectionFooter [.str "@link"]) =
      false :=
  ⟨rfl, rfl, rfl, rfl⟩

/-- Whether an argument list starts with a packed `{args: [...]}` value. -/
def structuredHead : List ArgVal → Bool
  | .structuredArgs _ :: _ => true
  | _ => false

/-- **C8.** For every invocation via `executeCommand`: either selector
resolution succeeds and the wrapped function is invoked with the original
(possibly structured) argument list and the given context, or resolution
fails and no invocation is produced; when `args[0]` is a packed
`{args: [...]}` object, resolution is applied to the inner array while the
outer argument list keeps its structure. -/
theorem executeCommand_dispatch_contract (api : ApiModel) (c : Cmd) (parent : Parent)
    (ctx : Nat) :
    (∀ inner rest e, parseElementSelector api c parent inner = .error e →
      executeCommand api c parent (.structuredArgs inner :: rest) ctx = .error e)
    ∧ (∀ inner rest c' p' inner',
        parseElementSelector api c parent inner = .ok (c', p', inner') →
        executeCommand api c parent (.structuredArgs inner :: rest) ctx =
          .ok (c', p', { fnArgs := .structuredArgs inner' :: rest, contextId := ctx }))
    ∧ (∀ args e, structuredHead args = false →
        parseElementSelector api c parent args = .error e →
        executeCommand api c parent args ctx = .error e)
    ∧ (∀ args c' p' args', structuredHead args = false →
        parseElementSelector api c parent args = .ok (c', p', args') →
        executeCommand api c parent args ctx =
          .ok (c', p', { fnArgs := args', contextId := ctx })) := by
  refine ⟨?_, ?_, ?_, ?_⟩
  · intro inner rest e hp
    unfold executeCommand
    dsimp only
    rw [hp]
  · intro inner rest c' p' inner' hp
    unfold executeCommand
    dsimp only
    rw [hp]
  · intro args e hstr hp
    cases args with
    | nil =>
      unfold executeCommand
      rw [hp]
    | cons a rest =>
      cases a with
      | structuredArgs inner => simp [structuredHead] at hstr
      | nullv => unfold executeCommand; rw [hp]
      | str s => unfold executeCommand; rw [hp]
      | num n => unfold executeCommand; rw [hp]
      | boolv b => unfold executeCommand; rw [hp]
      | arrv => unfold executeCommand; rw [hp]
      | desc sel strat => unfold executeCommand; rw [hp]
      | objNoSel => unfold executeCommand; rw [hp]
      | elem e' => unfold executeCommand; rw [hp]
  · intro args c' p' args' hstr hp
    cases args with
    | nil =>
      unfold executeCommand
      rw [hp]
    | cons a rest =>
      cases a with
      | structuredArgs inner => simp [structuredHead] at hstr
      | nullv => unfold executeCommand; rw [hp]
      | str s => unfold executeCommand; rw [hp]
      | num n => unfold executeCommand; rw [hp]
      | boolv b => unfold executeCommand; rw [hp]
      | arrv => unfold executeCommand; rw [hp]
      | desc sel strat => unfold executeCommand; rw [hp]
      | objNoSel => unfold executeCommand; rw [hp]
      | elem e' => unfold executeCommand; rw [hp]

theorem executeCommand_dispatch_contract_witness :
    executeCommand apiSample cmdClick pageSample [.structuredArgs [.str "@submit"]] 5 =
      .ok (cmdClick, pageSample,
        { fnArgs := [.structuredArgs [.elem (declaredResolution dSubmit none)]],
          contextId := 5 })
    ∧ executeCommand apiSample cmdClick pageSample [.str "@submit"] 7 =
      .ok (cmdClick, pageSample,
        { fnArgs := [.elem (declaredResolution dSubmit none)], contextId := 7 }) :=
  ⟨(executeCommand_dispatch_contract apiSample cmdClick pageSample 5).2.1
      [.str "@submit"] [] cmdClick pageSample [.elem (declaredResolution dSubmit none)] rfl,
    (executeCommand_dispatch_contract apiSample cmdClick pageSample 7).2.2.2
      [.str "@submit"] cmdClick pageSample [.elem (declaredResolution dSubmit none)] rfl rfl⟩

theorem applyCommandStep_lookup_other (target : List (String × TargetVal)) (k : String)
    (v : CommandVal) (k' : String) (hk : k' ≠ k) :
    lookupTV (applyCommandStep target k v).1 k' = lookupTV target k' := by
  unfold applyCommandStep
  by_cases ha : isAllowedNamespace k = true
  · simp only [ha, if_true]
    cases v with
    | nsv entries =>
      dsimp only
      rw [lookupTV_setTV_ne _ _ _ _ hk]
    | fnv f =>
      dsimp only
      cases lookupTV target k with
      | some w => rfl
      | none => rw [lookupTV_setTV_ne _ _ _ _ hk]
  · simp only [ha, if_false, Bool.not_eq_true] at *
    simp only [ha, Bool.false_eq_true, if_false]
    cases v with
    | nsv entries => rfl
    | fnv f =>
      unfold addCommand
      by_cases hd : (lookupTV target k).isSome = true
      · simp only [hd, Bool.not_false, Bool.and_true, if_true]
      · simp only [Bool.not_eq_true] at hd
        simp only [hd, Bool.false_and, Bool.false_eq_true, if_false]
        exact lookupTV_setTV_ne _ _ _ _ hk

theorem applyCommandsToTarget_lookup_not_mem (commands : List (String × CommandVal))
    (target : List (String × TargetVal)) (k : String)
    (h : k ∉ commands.map Prod.fst) :
    lookupTV (applyCommandsToTarget target commands).1 k = lookupTV target k := by
  induction commands generalizing target with
  | nil => rfl
  | cons hd rest ih =>
    obtain ⟨k0, v0⟩ := hd
    have hk : k ≠ k0 := by
      intro he
      exact h (by simp [he])
    have hrest : k ∉ rest.map Prod.fst := by
      intro he
      exact h (by simp [he])
    have hstep' := applyCommandStep_lookup_other target k0 v0 k hk
    unfold applyCommandsToTarget
    cases hstep : applyCommandStep target k0 v0 with
    | mk t' err =>
      rw [hstep] at hstep'
      cases err with
      | some e => exact hstep'
      | none => rw [ih t' hrest]; exact hstep'

/-- **C9** (amended).  After a successful `applyCommandsToTarget`, every
top-level name the loader bound to a *function* value that is not in the
fixed namespace whitelist is registered as a direct `Command`-wrapped
entry on the target, with `isES6Async` inferred from whether the function
is declared as an ES6 async function; non-whitelisted names bound to
namespace objects are skipped. -/
theorem applyCommandsToTarget_direct_commands (target : List (String × TargetVal))
    (commands : List (String × CommandVal)) (k : String) (f : FnVal)
    (hnd : (commands.map Prod.fst).Nodup)
    (hmem : (k, CommandVal.fnv f) ∈ commands)
    (hns : isAllowedNamespace k = false)
    (hok : (applyCommandsToTarget target commands).2 = none) :
    lookupTV (applyCommandsToTarget target commands).1 k =
      some
        (.cmdEntry
          { fnId := f.fnId, commandName := k,
            isChaiAssertion := false, isES6Async := f.isES6AsyncFn }) := by
  induction commands generalizing target with
  | nil => cases hmem
  | cons hd rest ih =>
    obtain ⟨k0, v0⟩ := hd
    have hndr : (rest.map Prod.fst).Nodup := by
      simp only [List.map_cons, List.nodup_cons] at hnd
      exact hnd.2
    have hk0 : k0 ∉ rest.map Prod.fst := by
      simp only [List.map_cons, List.nodup_cons] at hnd
      exact hnd.1
    cases hstep : applyCommandStep target k0 v0 with
    | mk t' err =>
      have hfold : applyCommandsToTarget target ((k0, v0) :: rest) =
          (match (t', err) with
           | (t', some e) => (t', some e)
           | (t', none) => applyCommandsToTarget t' rest) := by
        conv_lhs => unfold applyCommandsToTarget
        rw [hstep]
      cases err with
      | some e =>
        rw [hfold] at hok
        cases hok
      | none =>
        rw [hfold] at hok ⊢
        dsimp only at hok ⊢
        rcases List.mem_cons.mp hmem with hhd | htl
        · have hkk : k = k0 := congrArg Prod.fst hhd
          have hvv : v0 = CommandVal.fnv f := (congrArg Prod.snd hhd).symm
          subst hkk
          subst hvv
          rw [applyCommandsToTarget_lookup_not_mem rest t' k hk0]
          unfold applyCommandStep at hstep
          rw [hns] at hstep
          simp only [Bool.false_eq_true, if_false] at hstep
          unfold addCommand at hstep
          by_cases hd : (lookupTV target k).isSome = true
          · simp only [hd, Bool.not_false, Bool.and_true, if_true] at hstep
            cases hstep
          · simp only [Bool.not_eq_true] at hd
            simp only [hd, Bool.false_and, Bool.false_eq_true, if_false] at hstep
            have ht' : t' = setTV target k
                (.cmdEntry
                  { fnId := f.fnId, commandName := k,
                    isChaiAssertion := false, isES6Async := f.isES6AsyncFn }) :=
              (congrArg Prod.fst hstep).symm
            rw [ht']
            exact lookupTV_setTV_self _ _ _
        · exact ih t' hndr htl hok

/-- **C9** counterexample: a non-whitelisted top-level name bound to a
namespace object (`custom`) is not registered as a direct command — the
walk skips it and succeeds without installing anything. -/
theorem applyCommandsToTarget_skips_namespaces :
    lookupTV
        (applyCommandsToTarget []
          [("custom", .nsv [("foo", { fnId := 1, isES6AsyncFn := false })])]).1
        "custom" = none
    ∧ (applyCommandsToTarget []
        [("custom", .nsv [("foo", { fnId := 1, isES6AsyncFn := false })])]).2 = none
    ∧ isAllowedNamespace "custom" = false :=
  ⟨rfl, rfl, rfl⟩

theorem applyCommandsToTarget_direct_commands_witness :
    lookupTV
        (applyCommandsToTarget []
          [("myCommand", .fnv { fnId := 7, isES6AsyncFn := true })]).1
        "myCommand" =
      some
        (.cmdEntry
          { fnId := 7, commandName := "myCommand",
            isChaiAssertion := false, isES6Async := true }) :=
  applyCommandsToTarget_direct_commands []
    [("myCommand", .fnv { fnId := 7, isES6AsyncFn := true })] "myCommand"
    { fnId := 7, isES6AsyncFn := true } (by decide) (by decide) (by decide) rfl
